import Mathlib

/-!
Shallow embedding of `src/substack-scraper.py`, a single-file Substack
scraper: paginated API fetching (`fetch_page`, `scrape_all_posts`),
per-article byline extraction (`extract_author_from_html`), field
normalization (`normalize_post`) and CSV output.  Network transport and
HTML parsing are modelled as oracles passed in explicitly; everything
else follows the Python source line by line (truthiness of `""`, `None`
and `[]` included).
-/

namespace Scraper

/-- Python truthiness of an optional string: `None` and `""` are falsy. -/
def truthy : Option String → Bool
  | some s => s ≠ ""
  | none => false

/-- Python `x or y` on optional strings: `y` when `x` is `None` or `""`. -/
def truthyOr (x y : Option String) : Option String :=
  match x with
  | some s => if s = "" then y else some s
  | none => y

/-- Python `x or ""`: the string if present (possibly empty), else `""`. -/
def orEmpty : Option String → String
  | some s => s
  | none => ""

/-- A falsy optional string value: absent, or present but empty.
(Python treats both identically in `or`-chains and `if` tests.) -/
def falsy (o : Option String) : Prop := o = none ∨ o = some ""

instance (o : Option String) : Decidable (falsy o) := by
  unfold falsy; infer_instance

/-- The hardcoded publication base URL (line 19 of the source). -/
def BASE : String := "https://zeteo.com"

/-- Model of `urllib.parse.urljoin` restricted to the URL shapes this
program produces: an absolute URL is kept as is, a root-relative path is
appended to the base, any other relative path is resolved against the
base's root. -/
def urljoin (base url : String) : String :=
  if url.startsWith "http://" || url.startsWith "https://" then url
  else if url.startsWith "/" then base ++ url
  else base ++ "/" ++ url

/-- A raw API post record (`post` dict in the source): each key the code
looks up is an optional string, `none` meaning the key is absent. -/
structure RawPost where
  published_at : Option String := none
  post_date : Option String := none
  created_at : Option String := none
  title : Option String := none
  subtitle : Option String := none
  dek : Option String := none
  description : Option String := none
  url : Option String := none
  slug : Option String := none
  id : Option String := none
deriving Repr, DecidableEq

/-- The normalized record `normalize_post` returns (lines 190-196). -/
structure NormalizedPost where
  date : String
  author_byline : String
  headline : String
  url : String
  subheading : String
deriving Repr, DecidableEq

/-- An `<a>` element as the byline heuristics see it: its `href`
attribute and its stripped visible text (`get_text(strip=True)`). -/
structure HtmlLink where
  href : String
  text : String
deriving Repr, DecidableEq

/-- A parsed article page, restricted to what `extract_author_from_html`
inspects: all links, and the whitespace-collapsed stripped texts of the
elements matching each of the four byline selectors, in document order. -/
structure HtmlDoc where
  links : List HtmlLink
  byline : List String
  post_meta : List String
  post_byline : List String
  author_name : List String
deriving Repr, DecidableEq

/-- Outcome of downloading and parsing an article page: any network
error, non-success status or parse error is a single failure case
(the source's bare `except Exception`). -/
inductive FetchOutcome where
  | failure
  | success (doc : HtmlDoc)
deriving Repr, DecidableEq

/-- Python `str.split()`: whitespace-separated tokens, empties dropped. -/
def tokens (s : String) : List String :=
  (s.split Char.isWhitespace).filter (fun t => t ≠ "")

/-- Strategy 1 (lines 104-108): links whose `href` contains `@`, keeping
the visible text when it is nonempty and has at most five tokens. -/
def strategy1 (links : List HtmlLink) : List String :=
  (links.filter (fun a => a.href.contains '@')).filterMap (fun a =>
    if a.text ≠ "" ∧ (tokens a.text).length ≤ 5 then some a.text else none)

/-- Strategy 2 (lines 112-121): texts of elements matching the four
byline selectors, in selector order, keeping nonempty texts. -/
def strategy2 (doc : HtmlDoc) : List String :=
  doc.byline.filter (fun t => t ≠ "")
    ++ doc.post_meta.filter (fun t => t ≠ "")
    ++ doc.post_byline.filter (fun t => t ≠ "")
    ++ doc.author_name.filter (fun t => t ≠ "")

/-- The concatenated candidate list of both heuristic passes. -/
def candidatesOf (doc : HtmlDoc) : List String :=
  strategy1 doc.links ++ strategy2 doc

/-- The dedup loop of lines 124-129: walk the candidates keeping each
nonempty string not seen before, `seen` being the set built so far. -/
def cleanLoop (seen : List String) : List String → List String
  | [] => []
  | c :: cs =>
      if c ≠ "" ∧ c ∉ seen then c :: cleanLoop (c :: seen) cs
      else cleanLoop seen cs

/-- Lines 124-129 applied from an empty `seen` set. -/
def clean (candidates : List String) : List String := cleanLoop [] candidates

/-- Line 132: `", ".join(cleaned) if cleaned else ""`. -/
def joinAuthors (cleaned : List String) : String :=
  if cleaned ≠ [] then String.intercalate ", " cleaned else ""

/-- `extract_author_from_html` (lines 78-137): the page download and
parse is the `fetchHtml` oracle; any failure yields `""` (the
`except Exception` branch), otherwise the two heuristic passes run,
the candidates are deduplicated and joined with `", "`.  The function
is total: it never raises. -/
def extract_author_from_html (fetchHtml : String → FetchOutcome)
    (post_url : String) : String :=
  match fetchHtml post_url with
  | FetchOutcome.failure => ""
  | FetchOutcome.success doc => joinAuthors (clean (candidatesOf doc))

/-- URL resolution of `normalize_post` (lines 176-183): a truthy `url`
key is resolved against `BASE`; otherwise `slug or id`, when truthy,
builds `{BASE}/p/{slug}`; otherwise the URL is empty. -/
def resolve_url (p : RawPost) : String :=
  if truthy p.url then urljoin BASE (orEmpty p.url)
  else
    if truthy (truthyOr p.slug p.id) then
      BASE ++ "/p/" ++ orEmpty (truthyOr p.slug p.id)
    else ""

/-- `normalize_post` (lines 144-196), instrumented: the second component
counts how many times the byline extractor is invoked for this post
(the source calls it exactly when the resolved URL is truthy). -/
def normalize_postI (fetchHtml : String → FetchOutcome) (p : RawPost) :
    NormalizedPost × Nat :=
  let date := orEmpty (truthyOr (truthyOr p.published_at p.post_date) p.created_at)
  let headline := (orEmpty p.title).trim
  let subheading :=
    (orEmpty (truthyOr (truthyOr p.subtitle p.dek) p.description)).trim
  let url := resolve_url p
  if url ≠ "" then
    (⟨date, extract_author_from_html fetchHtml url, headline, url, subheading⟩, 1)
  else
    (⟨date, "", headline, url, subheading⟩, 0)

/-- `normalize_post` proper: the normalized record. -/
def normalize_post (fetchHtml : String → FetchOutcome) (p : RawPost) :
    NormalizedPost :=
  (normalize_postI fetchHtml p).1

/-- A decoded JSON body of the listing API: either a bare list of posts,
or an object whose `posts`, `items` and `results` keys each hold a list
of posts or are absent (only these three keys are ever read). -/
inductive ApiResponse where
  | list (posts : List RawPost)
  | dict (posts items results : Option (List RawPost))
deriving Repr, DecidableEq

/-- What the HTTP transport produced for one listing request: a network
error during `session.get`, or a response with its status code and its
body — `some` the decoded value when the body is valid JSON, `none` when
`resp.json()` would fail to decode it. -/
inductive HttpOutcome where
  | netErr
  | resp (status : Nat) (body : Option ApiResponse)
deriving Repr, DecidableEq

/-- The exceptions `fetch_page` can propagate: a `requests` network
error, an `HTTPError` from `raise_for_status` (status 400-599), or a
JSON decode error from `resp.json()`. -/
inductive FetchErr where
  | network
  | httpStatus (status : Nat)
  | jsonDecode
deriving Repr, DecidableEq

/-- `fetch_page` (lines 46-71): performs the GET (the `http` oracle,
keyed by the `limit` and `offset` query parameters), then
`raise_for_status` (raises on status 400-599), then decodes the JSON
body (raises when it does not decode); errors propagate to the caller. -/
def fetch_page (http : Nat → Nat → HttpOutcome) (limit : Nat := 50)
    (offset : Nat := 0) : Except FetchErr ApiResponse :=
  match http limit offset with
  | HttpOutcome.netErr => Except.error FetchErr.network
  | HttpOutcome.resp status body =>
      if 400 ≤ status ∧ status < 600 then
        Except.error (FetchErr.httpStatus status)
      else
        match body with
        | some data => Except.ok data
        | none => Except.error FetchErr.jsonDecode

/-- Python `x or y` on optional post lists: `[]` and `None` are falsy. -/
def truthyListOr (x y : Option (List RawPost)) : Option (List RawPost) :=
  match x with
  | some l => if l.isEmpty then y else some l
  | none => y

/-- Lines 231-234: the post list of a page — the response itself when it
is a list, else `data.get("posts") or data.get("items") or
data.get("results")` with Python truthiness. -/
def postsOf : ApiResponse → Option (List RawPost)
  | ApiResponse.list ps => some ps
  | ApiResponse.dict p i r => truthyListOr p (truthyListOr i r)

/-- The loop body of `scrape_all_posts` (lines 221-265), recursing on
the remaining page budget (`range(max_pages)`).  Each iteration issues
exactly one `fetch_page` call, counted in the second component; an error
from `fetch_page` propagates (aborting with the pages fetched so far
counted); `if not posts` (absent key chain or empty list) stops;
otherwise every post of the page is normalized and appended, and a page
shorter than `limit` stops after being processed.  The `time.sleep`
pacing calls have no observable effect in this model. -/
def scrapeLoop (http : Nat → Nat → HttpOutcome)
    (fetchHtml : String → FetchOutcome) (limit : Nat) :
    Nat → Nat → List NormalizedPost →
    Except FetchErr (List NormalizedPost) × Nat
  | 0, _, acc => (Except.ok acc, 0)
  | fuel + 1, offset, acc =>
    match fetch_page http limit offset with
    | Except.error e => (Except.error e, 1)
    | Except.ok data =>
      match postsOf data with
      | none => (Except.ok acc, 1)
      | some ps =>
        if ps.isEmpty then (Except.ok acc, 1)
        else if ps.length < limit then
          (Except.ok (acc ++ ps.map (normalize_post fetchHtml)), 1)
        else
          (scrapeLoop http fetchHtml limit fuel (offset + ps.length)
              (acc ++ ps.map (normalize_post fetchHtml))).map id (· + 1)

/-- `scrape_all_posts` (lines 203-268) with its default `limit` and
`max_pages`, starting from offset 0 with no rows collected; the second
component is the number of `fetch_page` calls performed. -/
def scrape_all_posts (http : Nat → Nat → HttpOutcome)
    (fetchHtml : String → FetchOutcome) (limit : Nat := 50)
    (max_pages : Nat := 1000) :
    Except FetchErr (List NormalizedPost) × Nat :=
  scrapeLoop http fetchHtml limit max_pages 0 []

/-- A collected row as the spread-authors writer sees it: like
`NormalizedPost` but with the author list kept as a list. -/
structure SpreadRow where
  date : String
  authors : List String
  headline : String
  url : String
  subheading : String
deriving Repr, DecidableEq

/-- Modelled from the spec: the spread-authors write mode of the second
script variant, whose source is not in the repository — `max_authors` is
"the maximum author-list length across all collected rows". -/
def max_authors (rows : List SpreadRow) : Nat :=
  (rows.map (fun r => r.authors.length)).foldr max 0

/-- Modelled from the spec: the spread-mode header row,
`date, author_1 … author_{max_authors}, headline, url, subheading`. -/
def spread_header (m : Nat) : List String :=
  "date" :: ((List.range m).map (fun i => "author_" ++ toString (i + 1))
    ++ ["headline", "url", "subheading"])

/-- Modelled from the spec: one spread-mode data row — "populate only as
many author columns as that row has authors (remaining columns blank)". -/
def spread_row (m : Nat) (r : SpreadRow) : List String :=
  r.date :: ((r.authors ++ List.replicate (m - r.authors.length) "")
    ++ [r.headline, r.url, r.subheading])

/-- Modelled from the spec: the spread-authors `save_to_csv` — the header
sized to `max_authors`, then one row per collected post, as the list of
CSV records it writes. -/
def save_to_csv_spread (rows : List SpreadRow) : List (List String) :=
  spread_header (max_authors rows) :: rows.map (spread_row (max_authors rows))

/-- First-seen deduplication, the specification-side description of the
cleanup loop: keep each element's first occurrence, drop the rest. -/
def keepFirst : List String → List String
  | [] => []
  | x :: xs => x :: keepFirst (xs.filter (fun y => y ≠ x))
termination_by l => l.length
decreasing_by
  exact Nat.lt_succ_of_le (List.length_filter_le _ _)

theorem keepFirst_mem : ∀ l (a : String), a ∈ keepFirst l ↔ a ∈ l := by
  intro l
  induction l using keepFirst.induct with
  | case1 => intro a; simp [keepFirst]
  | case2 c cs ih =>
    intro a
    rw [keepFirst]
    simp only [List.mem_cons]
    constructor
    · rintro (rfl | h)
      · exact Or.inl rfl
      · have hmem := (ih a).1 h
        simp only [List.mem_filter, decide_eq_true_eq] at hmem
        exact Or.inr hmem.1
    · rintro (rfl | h)
      · exact Or.inl rfl
      · by_cases hc : a = c
        · exact Or.inl hc
        · refine Or.inr ((ih a).2 ?_)
          simp only [List.mem_filter, decide_eq_true_eq]
          exact ⟨h, hc⟩

theorem keepFirst_nodup : ∀ l : List String, (keepFirst l).Nodup := by
  intro l
  induction l using keepFirst.induct with
  | case1 => simp [keepFirst]
  | case2 c cs ih =>
    rw [keepFirst]
    refine List.nodup_cons.2 ⟨?_, ih⟩
    intro hmem
    have h := (keepFirst_mem _ c).1 hmem
    simp [List.mem_filter] at h

theorem keepFirst_sublist : ∀ l : List String, List.Sublist (keepFirst l) l := by
  intro l
  induction l using keepFirst.induct with
  | case1 => simp [keepFirst]
  | case2 c cs ih =>
    rw [keepFirst]
    exact List.cons_sublist_cons.2 (ih.trans (List.filter_sublist _))

theorem cleanLoop_eq (l : List String) :
    ∀ seen, cleanLoop seen l
      = keepFirst (l.filter (fun c => c ≠ "" ∧ c ∉ seen)) := by
  induction l with
  | nil => intro seen; simp [cleanLoop, keepFirst]
  | cons c cs ih =>
    intro seen
    by_cases h : c ≠ "" ∧ c ∉ seen
    · rw [cleanLoop, if_pos h, List.filter_cons, if_pos (by simpa using h),
        keepFirst, ih (c :: seen), List.filter_filter]
      congr 1
      congr 1
      apply List.filter_congr
      intro x _
      simp only [List.mem_cons]
      by_cases hx1 : x = c <;> by_cases hx2 : x = "" <;>
        by_cases hx3 : x ∈ seen <;> simp [hx1, hx2, hx3]
    · rw [cleanLoop, if_neg h, List.filter_cons, if_neg (by simpa using h),
        ih seen]

theorem clean_eq (candidates : List String) :
    clean candidates = keepFirst (candidates.filter (fun c => c ≠ "")) := by
  rw [clean, cleanLoop_eq]
  congr 1
  apply List.filter_congr
  intro x _
  simp

theorem truthy_of_falsy {o : Option String} (h : falsy o) : truthy o = false := by
  rcases h with h | h <;> subst h <;> simp [truthy]

theorem truthyOr_falsy_left {x : Option String} (h : falsy x) (y : Option String) :
    truthyOr x y = y := by
  rcases h with h | h <;> subst h <;> simp [truthyOr]

theorem normalize_post_url_eq (fetchHtml : String → FetchOutcome) (p : RawPost) :
    (normalize_post fetchHtml p).url = resolve_url p := by
  simp only [normalize_post, normalize_postI]
  split <;> rfl

theorem normalize_post_author_eq (fetchHtml : String → FetchOutcome) (p : RawPost) :
    (normalize_post fetchHtml p).author_byline
      = (if resolve_url p ≠ "" then
          extract_author_from_html fetchHtml (resolve_url p) else "") := by
  simp only [normalize_post, normalize_postI]
  split <;> simp_all

theorem resolve_url_empty_of_falsy {p : RawPost} (hu : falsy p.url)
    (hs : falsy p.slug) (hi : falsy p.id) : resolve_url p = "" := by
  rw [resolve_url, truthy_of_falsy hu, if_neg (by simp), truthyOr_falsy_left hs,
    truthy_of_falsy hi, if_neg (by simp)]

/-- C6: the final candidate list of the byline extractor is the
concatenated candidate list with empty strings discarded and duplicates
removed preserving first-seen order (`keepFirst` of the nonempty
candidates); it has no duplicates, contains exactly the nonempty
candidates, is a subsequence of the candidates, and on the spec's
example the joined single-string result is `"Jane Doe, John Roe"`. -/
theorem clean_dedups_first_seen (candidates : List String) :
    clean candidates = keepFirst (candidates.filter (fun c => c ≠ ""))
    ∧ (clean candidates).Nodup
    ∧ (∀ c, c ∈ clean candidates ↔ c ∈ candidates ∧ c ≠ "")
    ∧ List.Sublist (clean candidates) candidates
    ∧ joinAuthors (clean ["Jane Doe", "Jane Doe", "John Roe"])
        = "Jane Doe, John Roe" := by
  refine ⟨clean_eq candidates, ?_, ?_, ?_, by decide⟩
  · rw [clean_eq]; exact keepFirst_nodup _
  · intro c
    rw [clean_eq, keepFirst_mem]
    simp [List.mem_filter]
  · rw [clean_eq]
    exact (keepFirst_sublist _).trans (List.filter_sublist _)

/-- C2: the byline extractor is a total function (it never raises); it
returns the empty result on any download/parse failure, and also on a
successful page that has no qualifying `@`-link (href containing `@`
with nonempty text of at most five tokens) and no element matching any
of the four byline selectors. -/
theorem extract_author_failure_or_barren_is_empty
    (fetchHtml : String → FetchOutcome) (post_url : String) :
    (fetchHtml post_url = FetchOutcome.failure →
      extract_author_from_html fetchHtml post_url = "")
    ∧ (∀ doc, fetchHtml post_url = FetchOutcome.success doc →
        (∀ a ∈ doc.links, a.href.contains '@' →
          ¬(a.text ≠ "" ∧ (tokens a.text).length ≤ 5)) →
        doc.byline = [] → doc.post_meta = [] → doc.post_byline = [] →
        doc.author_name = [] →
        extract_author_from_html fetchHtml post_url = "") := by
  constructor
  · intro h
    rw [extract_author_from_html, h]
  · intro doc hdoc hlinks hb hm hpb han
    rw [extract_author_from_html, hdoc]
    have h1 : strategy1 doc.links = [] := by
      rw [strategy1, List.filterMap_eq_nil_iff]
      intro a ha
      rw [List.mem_filter] at ha
      exact if_neg (hlinks a ha.1 ha.2)
    have h2 : strategy2 doc = [] := by
      rw [strategy2, hb, hm, hpb, han]
      rfl
    simp only [candidatesOf, h1, h2]
    rfl

/-- Witness for C2 at a concrete failing fetch oracle. -/
theorem extract_author_failure_or_barren_is_empty_witness :
    extract_author_from_html (fun _ => FetchOutcome.failure)
      "https://zeteo.com/p/x" = "" :=
  (extract_author_failure_or_barren_is_empty (fun _ => FetchOutcome.failure)
    "https://zeteo.com/p/x").1 rfl

/-- C3: the three-case URL resolution of `normalize_post` — a nonempty
`url` key wins and is resolved against the base regardless of `slug` or
`id`; otherwise a nonempty `slug` (or, that being falsy, a nonempty
`id`) builds `{BASE}/p/{slug-or-id}`; otherwise the URL is empty. -/
theorem normalize_url_three_cases
    (fetchHtml : String → FetchOutcome) (p : RawPost) :
    (∀ u, p.url = some u → u ≠ "" →
      (normalize_post fetchHtml p).url = urljoin BASE u)
    ∧ (falsy p.url → ∀ s, p.slug = some s → s ≠ "" →
      (normalize_post fetchHtml p).url = BASE ++ "/p/" ++ s)
    ∧ (falsy p.url → falsy p.slug → ∀ i, p.id = some i → i ≠ "" →
      (normalize_post fetchHtml p).url = BASE ++ "/p/" ++ i)
    ∧ (falsy p.url → falsy p.slug → falsy p.id →
      (normalize_post fetchHtml p).url = "") := by
  refine ⟨?_, ?_, ?_, ?_⟩
  · intro u hu hne
    rw [normalize_post_url_eq, resolve_url, hu]
    simp [truthy, orEmpty, hne]
  · intro hu s hs hne
    rw [normalize_post_url_eq, resolve_url, truthy_of_falsy hu, if_neg (by simp),
      hs]
    simp [truthyOr, truthy, orEmpty, hne]
  · intro hu hs i hi hne
    rw [normalize_post_url_eq, resolve_url, truthy_of_falsy hu, if_neg (by simp),
      truthyOr_falsy_left hs, hi]
    simp [truthy, orEmpty, hne]
  · intro hu hs hi
    rw [normalize_post_url_eq, resolve_url_empty_of_falsy hu hs hi]

/-- Witness for C3 at a concrete raw post carrying both a `url` and a
`slug`: the `url` key wins. -/
theorem normalize_url_three_cases_witness :
    (normalize_post (fun _ => FetchOutcome.failure)
      { url := some "/p/second", slug := some "ignored" }).url
      = urljoin BASE "/p/second" :=
  (normalize_url_three_cases (fun _ => FetchOutcome.failure)
    { url := some "/p/second", slug := some "ignored" }).1
    "/p/second" rfl (by decide)

/-- C4: a raw post with neither a truthy `url` key nor a truthy `slug`
or `id` normalizes with an empty author byline, and the byline extractor
is invoked zero times for it (no network call is made). -/
theorem normalize_no_url_skips_extractor
    (fetchHtml : String → FetchOutcome) (p : RawPost)
    (hu : falsy p.url) (hs : falsy p.slug) (hi : falsy p.id) :
    (normalize_post fetchHtml p).author_byline = ""
    ∧ (normalize_postI fetchHtml p).2 = 0 := by
  have hurl : resolve_url p = "" := resolve_url_empty_of_falsy hu hs hi
  constructor
  · rw [normalize_post_author_eq, hurl]
    simp
  · simp only [normalize_postI, hurl]
    simp

/-- Witness for C4 at the all-absent raw post. -/
theorem normalize_no_url_skips_extractor_witness :
    (normalize_post (fun _ => FetchOutcome.failure) {}).author_byline = ""
    ∧ (normalize_postI (fun _ => FetchOutcome.failure) {}).2 = 0 :=
  normalize_no_url_skips_extractor (fun _ => FetchOutcome.failure) {}
    (Or.inl rfl) (Or.inl rfl) (Or.inl rfl)

/-- Counterexample to C5 as stated: `fetch_page` also raises when the
response has a success status (200) and no network error occurred but
the body fails to decode as JSON — `resp.json()` on line 71 raises a
decode error the function does not catch.  So "raises exactly when the
HTTP response has a non-success status or a network error occurs" is
false. -/
theorem fetch_page_raises_on_decode_failure :
    fetch_page (fun _ _ => HttpOutcome.resp 200 none) 50 0
      = Except.error FetchErr.jsonDecode
    ∧ ¬ 400 ≤ 200 := by
  exact ⟨rfl, by decide⟩

/-- C5 (amended): `fetch_page` raises exactly when a network error
occurs, the HTTP status is non-success (400-599), or the body fails to
decode as JSON; it performs no local recovery, so any such failure makes
the pagination driver abort immediately with that error; on a success
status with a JSON-decodable body it returns the decoded body. -/
theorem fetch_page_failure_conditions
    (http : Nat → Nat → HttpOutcome) (limit offset : Nat) :
    ((∃ e, fetch_page http limit offset = Except.error e) ↔
      (http limit offset = HttpOutcome.netErr
        ∨ (∃ s b, http limit offset = HttpOutcome.resp s b
            ∧ 400 ≤ s ∧ s < 600)
        ∨ (∃ s, http limit offset = HttpOutcome.resp s none)))
    ∧ (∀ s j, http limit offset = HttpOutcome.resp s (some j) →
        ¬(400 ≤ s ∧ s < 600) →
        fetch_page http limit offset = Except.ok j)
    ∧ (∀ e fetchHtml fuel acc,
        fetch_page http limit offset = Except.error e →
        scrapeLoop http fetchHtml limit (fuel + 1) offset acc
          = (Except.error e, 1)) := by
  refine ⟨?_, ?_, ?_⟩
  · rw [fetch_page]
    cases h : http limit offset with
    | netErr => simp
    | resp s b =>
      by_cases hs : 400 ≤ s ∧ s < 600
      · simp [hs]
      · cases b with
        | none => simp [hs]
        | some j => simp [hs]
  · intro s j hresp hs
    simp only [fetch_page, hresp]
    rw [if_neg hs]
  · intro e fetchHtml fuel acc herr
    rw [scrapeLoop, herr]

/-- Witness for C5's amended theorem: a 200 response with a decodable
body returns the decoded value. -/
theorem fetch_page_failure_conditions_witness :
    fetch_page (fun _ _ => HttpOutcome.resp 200 (some (ApiResponse.list [])))
      50 0 = Except.ok (ApiResponse.list []) :=
  (fetch_page_failure_conditions
    (fun _ _ => HttpOutcome.resp 200 (some (ApiResponse.list []))) 50 0).2.1
    200 (ApiResponse.list []) rfl (by decide)

/-- C1: whenever the page fetched at the current offset decodes and
yields a nonempty post list strictly shorter than the requested `limit`,
the driver normalizes and appends every post of that page, in order, and
returns immediately — exactly one `fetch_page` call is issued from that
state, so no further page request follows. -/
theorem scrape_short_page_processes_all_then_stops
    (http : Nat → Nat → HttpOutcome) (fetchHtml : String → FetchOutcome)
    (limit fuel offset : Nat) (acc : List NormalizedPost)
    (data : ApiResponse) (ps : List RawPost)
    (hfetch : fetch_page http limit offset = Except.ok data)
    (hposts : postsOf data = some ps)
    (hne : ps ≠ [])
    (hshort : ps.length < limit) :
    scrapeLoop http fetchHtml limit (fuel + 1) offset acc
      = (Except.ok (acc ++ ps.map (normalize_post fetchHtml)), 1) := by
  rw [scrapeLoop, hfetch]
  simp only [hposts]
  rw [if_neg (by simp [hne]), if_pos hshort]

/-- Witness for C1: one page of a single post under limit 50. -/
theorem scrape_short_page_processes_all_then_stops_witness :
    scrapeLoop
      (fun _ _ => HttpOutcome.resp 200
        (some (ApiResponse.list [{ slug := some "a" }])))
      (fun _ => FetchOutcome.failure) 50 3 0 []
      = (Except.ok ([] ++ [({ slug := some "a" } : RawPost)].map
          (normalize_post (fun _ => FetchOutcome.failure))), 1) :=
  scrape_short_page_processes_all_then_stops _ _ 50 2 0 []
    (ApiResponse.list [{ slug := some "a" }]) [{ slug := some "a" }]
    rfl rfl (by decide) (by decide)

/-- C7: the post list of a page is the response itself when it is a bare
list; for a dict response it is taken from the `posts`, `items`,
`results` keys with first-truthy priority; and whenever the extracted
list yields zero posts (all keys falsy, or an empty bare list), the
driver stops at once, appending nothing and issuing no further request. -/
theorem scrape_posts_source_priority_and_empty_stop :
    (∀ ps, postsOf (ApiResponse.list ps) = some ps)
    ∧ (∀ p i r l, p = some l → l ≠ [] →
        postsOf (ApiResponse.dict p i r) = some l)
    ∧ (∀ p i r l, (p = none ∨ p = some []) → i = some l → l ≠ [] →
        postsOf (ApiResponse.dict p i r) = some l)
    ∧ (∀ p i r, (p = none ∨ p = some []) → (i = none ∨ i = some []) →
        postsOf (ApiResponse.dict p i r) = r)
    ∧ (∀ http fetchHtml limit fuel offset acc data,
        fetch_page http limit offset = Except.ok data →
        (postsOf data = none ∨ postsOf data = some []) →
        scrapeLoop http fetchHtml limit (fuel + 1) offset acc
          = (Except.ok acc, 1)) := by
  refine ⟨fun ps => rfl, ?_, ?_, ?_, ?_⟩
  · intro p i r l hp hl
    subst hp
    simp [postsOf, truthyListOr, List.isEmpty_iff, hl]
  · intro p i r l hp hi hl
    subst hi
    rcases hp with hp | hp <;> subst hp <;>
      simp [postsOf, truthyListOr, List.isEmpty_iff, hl]
  · intro p i r hp hi
    rcases hp with hp | hp <;> rcases hi with hi | hi <;>
      subst hp <;> subst hi <;> simp [postsOf, truthyListOr]
  · intro http fetchHtml limit fuel offset acc data hfetch hstop
    rw [scrapeLoop, hfetch]
    rcases hstop with h | h <;> simp [h]

/-- Witness for C7: a dict page whose `posts` key is an empty list and
whose other keys are absent stops the driver with nothing appended. -/
theorem scrape_posts_source_priority_and_empty_stop_witness :
    scrapeLoop
      (fun _ _ => HttpOutcome.resp 200
        (some (ApiResponse.dict (some []) none none)))
      (fun _ => FetchOutcome.failure) 50 7 0 []
      = (Except.ok [], 1) :=
  scrape_posts_source_priority_and_empty_stop.2.2.2.2
    (fun _ _ => HttpOutcome.resp 200
      (some (ApiResponse.dict (some []) none none)))
    (fun _ => FetchOutcome.failure) 50 6 0 []
    (ApiResponse.dict (some []) none none) rfl (Or.inl rfl)

/-- C8: the pagination driver always terminates, and for every transport
and every state it issues at most `fuel` (`max_pages`) page requests; in
particular `scrape_all_posts` with its default cap issues at most 1000. -/
theorem scrape_fetch_count_bounded
    (http : Nat → Nat → HttpOutcome) (fetchHtml : String → FetchOutcome)
    (limit : Nat) :
    (∀ fuel offset acc,
      (scrapeLoop http fetchHtml limit fuel offset acc).2 ≤ fuel)
    ∧ (scrape_all_posts http fetchHtml limit).2 ≤ 1000 := by
  have hloop : ∀ fuel offset acc,
      (scrapeLoop http fetchHtml limit fuel offset acc).2 ≤ fuel := by
    intro fuel
    induction fuel with
    | zero => intro offset acc; simp [scrapeLoop]
    | succ n ih =>
      intro offset acc
      rw [scrapeLoop]
      cases hf : fetch_page http limit offset with
      | error e => simp [hf]
      | ok data =>
        simp only [hf]
        cases hp : postsOf data with
        | none => simp [hp]
        | some ps =>
          simp only [hp]
          by_cases he : ps.isEmpty
          · simp [he]
          · by_cases hs : ps.length < limit
            · simp [he, hs]
            · simp only [he, hs, if_false, Bool.false_eq_true, Prod.map]
              simpa using Nat.succ_le_succ (ih (offset + ps.length)
                (acc ++ ps.map (normalize_post fetchHtml)))
  exact ⟨hloop, hloop 1000 0 []⟩

theorem le_foldr_max (l : List Nat) : ∀ a ∈ l, a ≤ l.foldr max 0 := by
  induction l with
  | nil => simp
  | cons x xs ih =>
    intro a ha
    rcases List.mem_cons.1 ha with rfl | ha
    · exact Nat.le_max_left _ _
    · exact Nat.le_trans (ih a ha) (Nat.le_max_right _ _)

theorem foldr_max_mem (l : List Nat) (h : l ≠ []) : l.foldr max 0 ∈ l := by
  induction l with
  | nil => exact absurd rfl h
  | cons x xs ih =>
    cases xs with
    | nil => simp
    | cons y t =>
      rcases Nat.le_total x ((y :: t).foldr max 0) with hle | hle
      · rw [List.foldr_cons, Nat.max_eq_right hle]
        exact List.mem_cons_of_mem _ (ih (by simp))
      · rw [List.foldr_cons, Nat.max_eq_left hle]
        exact List.mem_cons_self _ _

theorem max_authors_le {rows : List SpreadRow} {r : SpreadRow} (hr : r ∈ rows) :
    r.authors.length ≤ max_authors rows :=
  le_foldr_max _ _ (List.mem_map_of_mem _ hr)

/-- C9: in spread-authors write mode, `max_authors` is the maximum
author-list length across all collected rows (an upper bound, attained
when any row exists); the emitted header is
`date, author_1 … author_{max_authors}, headline, url, subheading`
(stated positionally); and each emitted data row has the full width,
populates author column `i` exactly for `i` up to that row's author
count, and leaves the remaining author columns blank. -/
theorem spread_mode_layout (rows : List SpreadRow) :
    (∀ r ∈ rows, r.authors.length ≤ max_authors rows)
    ∧ (rows ≠ [] → ∃ r ∈ rows, r.authors.length = max_authors rows)
    ∧ (spread_header (max_authors rows)).length = max_authors rows + 4
    ∧ (spread_header (max_authors rows))[0]? = some "date"
    ∧ (∀ i, i < max_authors rows →
        (spread_header (max_authors rows))[i + 1]?
          = some ("author_" ++ toString (i + 1)))
    ∧ (spread_header (max_authors rows))[max_authors rows + 1]?
        = some "headline"
    ∧ (spread_header (max_authors rows))[max_authors rows + 2]? = some "url"
    ∧ (spread_header (max_authors rows))[max_authors rows + 3]?
        = some "subheading"
    ∧ (∀ r ∈ rows,
        (spread_row (max_authors rows) r).length = max_authors rows + 4)
    ∧ (∀ r ∈ rows, ∀ i, i < r.authors.length →
        (spread_row (max_authors rows) r)[i + 1]? = r.authors[i]?)
    ∧ (∀ r ∈ rows, ∀ i, r.authors.length ≤ i → i < max_authors rows →
        (spread_row (max_authors rows) r)[i + 1]? = some "") := by
  refine ⟨fun r hr => max_authors_le hr, ?_, ?_, by simp [spread_header],
    ?_, ?_, ?_, ?_, ?_, ?_, ?_⟩
  · intro hne
    have hmem : max_authors rows ∈ rows.map (fun r => r.authors.length) :=
      foldr_max_mem _ (by simpa using hne)
    rcases List.mem_map.1 hmem with ⟨r, hr, hlen⟩
    exact ⟨r, hr, hlen⟩
  · simp [spread_header]
  · intro i hi
    simp only [spread_header, List.getElem?_cons_succ]
    rw [List.getElem?_append, if_pos (by simpa using hi), List.getElem?_map,
      List.getElem?_range hi]
    rfl
  · simp only [spread_header, List.getElem?_cons_succ]
    rw [List.getElem?_append_right (by simp)]
    simp
  · simp only [spread_header, List.getElem?_cons_succ]
    rw [List.getElem?_append_right (by simp)]
    simp
  · simp only [spread_header, List.getElem?_cons_succ]
    rw [List.getElem?_append_right (by simp)]
    simp
  · intro r hr
    have hle := max_authors_le hr
    simp [spread_row]
    omega
  · intro r hr i hi
    have hle := max_authors_le hr
    simp only [spread_row, List.getElem?_cons_succ]
    rw [List.getElem?_append, if_pos (by simp; omega), List.getElem?_append,
      if_pos (by simpa using hi)]
  · intro r hr i hlo hhi
    have hle := max_authors_le hr
    simp only [spread_row, List.getElem?_cons_succ]
    rw [List.getElem?_append, if_pos (by simp; omega),
      List.getElem?_append_right (by simpa using hlo),
      List.getElem?_replicate]
    rw [if_pos (by omega)]

/-- Witness for C9 at the spec's example: rows with author counts 1 and
3 give a header whose third column is `author_2`, and the first row's
`author_2` column is blank. -/
theorem spread_mode_layout_witness :
    (spread_header (max_authors
        [⟨"d1", ["A"], "h1", "u1", "s1"⟩, ⟨"d2", ["B", "C", "D"], "h2", "u2", "s2"⟩]))[1 + 1]?
      = some ("author_" ++ toString (1 + 1))
    ∧ (spread_row (max_authors
        [⟨"d1", ["A"], "h1", "u1", "s1"⟩, ⟨"d2", ["B", "C", "D"], "h2", "u2", "s2"⟩])
        ⟨"d1", ["A"], "h1", "u1", "s1"⟩)[1 + 1]? = some "" :=
  ⟨(spread_mode_layout
      [⟨"d1", ["A"], "h1", "u1", "s1"⟩, ⟨"d2", ["B", "C", "D"], "h2", "u2", "s2"⟩]).2.2.2.2.1
      1 (by decide),
   (spread_mode_layout
      [⟨"d1", ["A"], "h1", "u1", "s1"⟩, ⟨"d2", ["B", "C", "D"], "h2", "u2", "s2"⟩]).2.2.2.2.2.2.2.2.2.2
      ⟨"d1", ["A"], "h1", "u1", "s1"⟩ (by simp) 1 (by decide) (by decide)⟩

theorem truthyOr_some_empty (y : Option String) :
    truthyOr (some "") y = truthyOr none y := by
  simp [truthyOr]

theorem truthyOr_mid (x z : Option String) :
    truthyOr (truthyOr x (some "")) z = truthyOr (truthyOr x none) z := by
  cases x with
  | none => simp [truthyOr]
  | some s => by_cases hs : s = "" <;> simp [truthyOr, hs]

theorem orEmpty_truthyOr_last (x : Option String) :
    orEmpty (truthyOr x (some "")) = orEmpty (truthyOr x none) := by
  cases x with
  | none => rfl
  | some s => by_cases hs : s = "" <;> simp [truthyOr, orEmpty, hs]

theorem normalize_post_ext (fetchHtml : String → FetchOutcome) {p q : RawPost}
    (hd : orEmpty (truthyOr (truthyOr p.published_at p.post_date) p.created_at)
        = orEmpty (truthyOr (truthyOr q.published_at q.post_date) q.created_at))
    (hh : orEmpty p.title = orEmpty q.title)
    (hs : orEmpty (truthyOr (truthyOr p.subtitle p.dek) p.description)
        = orEmpty (truthyOr (truthyOr q.subtitle q.dek) q.description))
    (hu : resolve_url p = resolve_url q) :
    normalize_post fetchHtml p = normalize_post fetchHtml q := by
  simp only [normalize_post, normalize_postI, hd, hh, hs, hu]

theorem resolve_url_url_empty {p : RawPost} (h : p.url = some "") :
    resolve_url { p with url := none } = resolve_url p := by
  obtain ⟨pa, pd, ca, ti, su, de, ds, u, sl, pid⟩ := p
  subst h
  simp [resolve_url, truthy]

theorem resolve_url_slug_empty {p : RawPost} (h : p.slug = some "") :
    resolve_url { p with slug := none } = resolve_url p := by
  obtain ⟨pa, pd, ca, ti, su, de, ds, u, sl, pid⟩ := p
  subst h
  simp only [resolve_url, truthyOr_some_empty]

theorem resolve_url_id_empty {p : RawPost} (h : p.id = some "") :
    resolve_url { p with id := none } = resolve_url p := by
  obtain ⟨pa, pd, ca, ti, su, de, ds, u, sl, pid⟩ := p
  subst h
  cases sl with
  | none => simp [resolve_url, truthyOr, truthy]
  | some s => by_cases hs : s = "" <;> simp [resolve_url, truthyOr, truthy, hs]

/-- C10: in every first-match-wins resolution of `normalize_post`
(`published_at`/`post_date`/`created_at`, `subtitle`/`dek`/`description`,
`url`/`slug`/`id`), a key that is present but maps to the empty (falsy)
string is treated exactly like an absent key: erasing it does not change
the normalized record, so resolution falls through to the next
candidate. -/
theorem normalize_falsy_key_like_absent
    (fetchHtml : String → FetchOutcome) (p : RawPost) :
    (p.published_at = some "" →
      normalize_post fetchHtml { p with published_at := none }
        = normalize_post fetchHtml p)
    ∧ (p.post_date = some "" →
      normalize_post fetchHtml { p with post_date := none }
        = normalize_post fetchHtml p)
    ∧ (p.created_at = some "" →
      normalize_post fetchHtml { p with created_at := none }
        = normalize_post fetchHtml p)
    ∧ (p.subtitle = some "" →
      normalize_post fetchHtml { p with subtitle := none }
        = normalize_post fetchHtml p)
    ∧ (p.dek = some "" →
      normalize_post fetchHtml { p with dek := none }
        = normalize_post fetchHtml p)
    ∧ (p.description = some "" →
      normalize_post fetchHtml { p with description := none }
        = normalize_post fetchHtml p)
    ∧ (p.url = some "" →
      normalize_post fetchHtml { p with url := none }
        = normalize_post fetchHtml p)
    ∧ (p.slug = some "" →
      normalize_post fetchHtml { p with slug := none }
        = normalize_post fetchHtml p)
    ∧ (p.id = some "" →
      normalize_post fetchHtml { p with id := none }
        = normalize_post fetchHtml p) := by
  refine ⟨?_, ?_, ?_, ?_, ?_, ?_, ?_, ?_, ?_⟩
  · intro h
    apply normalize_post_ext
    · rw [h, truthyOr_some_empty]
    · rfl
    · rfl
    · rfl
  · intro h
    apply normalize_post_ext
    · rw [h, truthyOr_mid]
    · rfl
    · rfl
    · rfl
  · intro h
    apply normalize_post_ext
    · rw [h, orEmpty_truthyOr_last]
    · rfl
    · rfl
    · rfl
  · intro h
    apply normalize_post_ext
    · rfl
    · rfl
    · rw [h, truthyOr_some_empty]
    · rfl
  · intro h
    apply normalize_post_ext
    · rfl
    · rfl
    · rw [h, truthyOr_mid]
    · rfl
  · intro h
    apply normalize_post_ext
    · rfl
    · rfl
    · rw [h, orEmpty_truthyOr_last]
    · rfl
  · intro h
    exact normalize_post_ext fetchHtml rfl rfl rfl (resolve_url_url_empty h)
  · intro h
    exact normalize_post_ext fetchHtml rfl rfl rfl (resolve_url_slug_empty h)
  · intro h
    exact normalize_post_ext fetchHtml rfl rfl rfl (resolve_url_id_empty h)

/-- Witness for C10: a raw post whose `published_at` key is present but
empty takes its date from `post_date`, exactly as if the key were
absent. -/
theorem normalize_falsy_key_like_absent_witness :
    normalize_post (fun _ => FetchOutcome.failure)
      { ({ published_at := some "", post_date := some "2024-01-01" } : RawPost)
        with published_at := none }
      = normalize_post (fun _ => FetchOutcome.failure)
        { published_at := some "", post_date := some "2024-01-01" } :=
  (normalize_falsy_key_like_absent (fun _ => FetchOutcome.failure)
    { published_at := some "", post_date := some "2024-01-01" }).1 rfl

end Scraper
